import Mathlib

/-!
Verification of the record-comparison services of `rem/rem0cmp.cc`
(the B-tree key comparator of the InnoDB storage engine).

Encoded field values are modelled as `FieldVal`: a `Bool` saying whether
the field's length is the SQL NULL sentinel (`UNIV_SQL_NULL`), together
with the list of bytes at the data pointer (the bytes are unconstrained
and never read when the field is NULL, mirroring the C code, which never
dereferences the data pointer of a NULL field).

Machine bytes are `Nat`s (always < 256 in real inputs; no arithmetic that
could overflow is performed on them, only equality and order tests, so no
modular reduction is needed).

Fallible or aborting code paths return `Option`: `none` stands for either
a fatal abort (`ib_logf(IB_LOG_LEVEL_FATAL, ...)`, `ut_error`) or an
out-of-bounds read (undefined behaviour), both of which never produce an
ordinary comparison result.
-/

/-- Modelled from the spec: the main-type codes of the engine's column
type dictionary (`dtype` main types). The numeric values are the engine's
conventional ones; only their distinctness matters to the comparator. -/
def DATA_VARCHAR : Nat := 1

/-- Modelled from the spec: main-type code for fixed-length character data. -/
def DATA_CHAR : Nat := 2

/-- Modelled from the spec: main-type code for fixed-length binary data. -/
def DATA_FIXBINARY : Nat := 3

/-- Modelled from the spec: main-type code for variable-length binary data. -/
def DATA_BINARY : Nat := 4

/-- Modelled from the spec: main-type code for blob/text data. -/
def DATA_BLOB : Nat := 5

/-- Modelled from the spec: main-type code for integer data. -/
def DATA_INT : Nat := 6

/-- Modelled from the spec: main-type code for an internal system type. -/
def DATA_SYS_CHILD : Nat := 7

/-- Modelled from the spec: main-type code for an internal system type. -/
def DATA_SYS : Nat := 8

/-- Modelled from the spec: main-type code for float data. -/
def DATA_FLOAT : Nat := 9

/-- Modelled from the spec: main-type code for double data. -/
def DATA_DOUBLE : Nat := 10

/-- Modelled from the spec: main-type code for decimal-as-text data. -/
def DATA_DECIMAL : Nat := 11

/-- Modelled from the spec: main-type code for non-binary varchar in the
server's own format. -/
def DATA_VARMYSQL : Nat := 12

/-- Modelled from the spec: main-type code for non-binary char in the
server's own format. -/
def DATA_MYSQL : Nat := 13

/-- Modelled from the spec: main-type code for geometry data. -/
def DATA_GEOMETRY : Nat := 14

/-- Modelled from the spec: the `DATA_BINARY_TYPE` precise-type bit flag
("binary string" flag), bit 10 of `prtype`. -/
def DATA_BINARY_TYPE : Nat := 1024

/-- Tests the `DATA_BINARY_TYPE` bit of a precise type
(`prtype & DATA_BINARY_TYPE` in the source). -/
def hasBinFlag (prtype : Nat) : Bool := prtype / 1024 % 2 = 1

/-- Modelled from the spec: the charset-collation id encoded in the
precise-type flags (`dtype_get_charset_coll`), held in the bits above
bit 16 of `prtype`. -/
def dtype_get_charset_coll (prtype : Nat) : Nat := prtype / 65536 % 256

/-- Modelled from the spec: the opaque external collaborators consumed by
the comparator (section 6 of the spec), bundled as an environment:
`padChar` is `dtype_get_pad_char` (`none` standing for `ULINT_UNDEFINED`,
i.e. the type has no pad character); `getCharset` says whether a
charset-collation id is resolvable; `strnncollsp` is the trailing-pad
insensitive collation comparison for a given charset id; `latin1` is the
built-in `my_charset_latin1` collation comparison; `dblGt` and `fltGt`
are the IEEE `>` tests applied to the doubles/floats decoded from the
two operands' bytes (`mach_double_read` / `mach_float_read` composed
with `>`). -/
structure CmpEnv where
  padChar : Nat → Nat → Option Nat
  getCharset : Nat → Bool
  strnncollsp : Nat → List Nat → List Nat → Int
  latin1 : List Nat → List Nat → Int
  dblGt : List Nat → List Nat → Bool
  fltGt : List Nat → List Nat → Bool

/-- An encoded field value: `isNull` is true when the length carried by
the caller is the `UNIV_SQL_NULL` sentinel; `bytes` are the bytes at the
data pointer (unconstrained, and never inspected, when `isNull`). -/
structure FieldVal where
  isNull : Bool
  bytes : List Nat
deriving DecidableEq

/-- Embedding of `innobase_mysql_cmp`: resolve the charset-collation from
the precise type, delegate to the collation's `strnncollsp`, and normalize
the result to -1/0/1 (`cmp < 0 ? -1 : !!cmp`). A failed charset lookup is
`ib_logf(IB_LOG_LEVEL_FATAL, ...)`, which aborts the process (the
`return(0)` after it is unreachable), so it is modelled as `none`. -/
def innobase_mysql_cmp (env : CmpEnv) (prtype : Nat) (a b : List Nat) :
    Option Int :=
  let cs := dtype_get_charset_coll prtype
  if env.getCharset cs then
    let cmp := env.strnncollsp cs a b
    some (if cmp < 0 then -1 else if cmp = 0 then 0 else 1)
  else none

/-- The space byte test of the decimal branch (`*p == ' '`). -/
def isSpace (c : Nat) : Bool := c = 32

/-- The leading `+`/`0` test of the decimal branch (`*p == '+' || *p == '0'`). -/
def isPlusOrZero (c : Nat) : Bool := c = 43 || c = 48

/-- Embedding of the final byte-for-byte loop of the `DATA_DECIMAL` branch
of `cmp_whole_field` (`while (a_length > 0 && *a == *b) ...` followed by
the `*a > *b` test), on the equal-length digit remainders: the first
differing byte decides, scaled by the sign multiplier `swap`. -/
def decBytes : List Nat → List Nat → Int → Int
  | x :: a, y :: b, swap =>
    if x = y then decBytes a b swap else if y < x then swap else -swap
  | _, _, _ => 0

/-- Embedding of the `DATA_DECIMAL` branch of `cmp_whole_field` after the
sign handling: strip leading `+`/`0` from both operands; if the remaining
lengths differ the longer operand wins (scaled by `swap`), otherwise the
remainders are compared byte for byte. -/
def decCore (a b : List Nat) (swap : Int) : Int :=
  let a2 := a.dropWhile isPlusOrZero
  let b2 := b.dropWhile isPlusOrZero
  if a2.length ≠ b2.length then
    if a2.length < b2.length then -swap else swap
  else decBytes a2 b2 swap

/-- Embedding of the whole `DATA_DECIMAL` branch of `cmp_whole_field`:
strip leading spaces, then test the sign bytes. The source dereferences
`*a` and (on every path) `*b` immediately after the space-stripping loops
without re-checking the remaining lengths, so an operand that is empty or
all spaces makes that read fall outside the operand: these out-of-bounds
reads are modelled as `none`. Every other dereference in the branch is
guarded by a positive remaining length. -/
def cmp_decimal (a b : List Nat) : Option Int :=
  let a1 := a.dropWhile isSpace
  let b1 := b.dropWhile isSpace
  match a1, b1 with
  | [], _ => none
  | _ :: _, [] => none
  | x :: a2, y :: b2 =>
    if x = 45 then
      if y ≠ 45 then some (-1)
      else some (decCore a2 b2 (-1))
    else if y = 45 then some 1
    else some (decCore (x :: a2) (y :: b2) 1)

/-- Embedding of `cmp_whole_field`: dispatch on the main type. The
`DATA_BLOB` case logs an error when the binary-type flag is set
(`ut_ad(0)` in debug builds) and then falls through, together with
`DATA_VARMYSQL` and `DATA_MYSQL`, to `innobase_mysql_cmp`; the
`default` case is a fatal abort, modelled as `none`. -/
def cmp_whole_field (env : CmpEnv) (mtype prtype : Nat) (a b : List Nat) :
    Option Int :=
  if mtype = DATA_DECIMAL then cmp_decimal a b
  else if mtype = DATA_DOUBLE then
    some (if env.dblGt a b then 1 else if env.dblGt b a then -1 else 0)
  else if mtype = DATA_FLOAT then
    some (if env.fltGt a b then 1 else if env.fltGt b a then -1 else 0)
  else if mtype = DATA_VARCHAR ∨ mtype = DATA_CHAR then
    some (if env.latin1 a b < 0 then -1
          else if env.latin1 a b = 0 then 0 else 1)
  else if mtype = DATA_BLOB ∨ mtype = DATA_VARMYSQL ∨ mtype = DATA_MYSQL then
    innobase_mysql_cmp env prtype a b
  else if mtype = DATA_GEOMETRY then some 0
  else none

/-- The sign of `memcmp(data1, data2, min(len1, len2))`: walk the common
prefix of the two byte lists and report the first difference. The source
only uses the sign of `memcmp` (`ret < 0 ? -1 : 1`), so the model returns
the sign directly. -/
def memcmpMin : List Nat → List Nat → Int
  | x :: a, y :: b => if x = y then memcmpMin a b else if x < y then -1 else 1
  | _, _ => 0

/-- Embedding of the trailing do-while loops of `cmp_data`: compare the
extra bytes of the longer operand against the pad byte, the first non-pad
byte deciding (below the pad means smaller). The loop over `data2`'s
extra bytes in the source returns the opposite signs, which the caller
models by negating this value. -/
def padRestCmp (pad : Nat) : List Nat → Int
  | [] => 0
  | c :: rest => if c ≠ pad then (if c < pad then -1 else 1) else padRestCmp pad rest

/-- The main-type dispatch of `cmp_data`'s switch: the types that break
out to the raw binary comparison (`DATA_FIXBINARY`, `DATA_BINARY`,
`DATA_INT`, `DATA_SYS_CHILD`, `DATA_SYS`, and `DATA_BLOB` when the
binary-type flag is set); everything else goes to `cmp_whole_field`. -/
def binaryComparable (mtype prtype : Nat) : Bool :=
  mtype = DATA_FIXBINARY ∨ mtype = DATA_BINARY ∨ mtype = DATA_INT ∨
  mtype = DATA_SYS_CHILD ∨ mtype = DATA_SYS ∨
  (mtype = DATA_BLOB ∧ hasBinFlag prtype)

/-- Embedding of `cmp_data`: the SQL NULL rule first (NULL is the
smallest possible value), then the main-type dispatch; binary-comparable
types compare the shared-length prefix with `memcmp`, then resolve a
length difference through the pad character (`dtype_get_pad_char`),
the longer operand winning when the type has no pad character. -/
def cmp_data (env : CmpEnv) (mtype prtype : Nat) (v1 v2 : FieldVal) :
    Option Int :=
  if v1.isNull || v2.isNull then
    some (if v1.isNull = v2.isNull then 0 else if v1.isNull then -1 else 1)
  else if binaryComparable mtype prtype then
    let a := v1.bytes
    let b := v2.bytes
    let r := memcmpMin a b
    if r ≠ 0 then some r
    else if a.length = b.length then some 0
    else
      match env.padChar mtype prtype with
      | none => some (if b.length < a.length then 1 else -1)
      | some pad =>
        if b.length < a.length then some (padRestCmp pad (a.drop b.length))
        else some (-(padRestCmp pad (b.drop a.length)))
  else cmp_whole_field env mtype prtype v1.bytes v2.bytes

/-- Embedding of `cmp_data_data`, which just forwards to `cmp_data`. -/
def cmp_data_data (env : CmpEnv) (mtype prtype : Nat) (v1 v2 : FieldVal) :
    Option Int :=
  cmp_data env mtype prtype v1 v2

/-- C1: for every column type and every pair of encoded field values,
`cmp_data`/`cmp_data_data` return 0 when both lengths are the SQL NULL
sentinel, -1 when only the first operand is NULL, and 1 when only the
second operand is NULL, regardless of the bytes at the data pointers and
of the column type. -/
theorem C1_null_ordering (env : CmpEnv) (mtype prtype : Nat) (a b : List Nat) :
    cmp_data env mtype prtype ⟨true, a⟩ ⟨true, b⟩ = some 0 ∧
    cmp_data env mtype prtype ⟨true, a⟩ ⟨false, b⟩ = some (-1) ∧
    cmp_data env mtype prtype ⟨false, a⟩ ⟨true, b⟩ = some 1 ∧
    cmp_data_data env mtype prtype ⟨true, a⟩ ⟨true, b⟩ = some 0 ∧
    cmp_data_data env mtype prtype ⟨true, a⟩ ⟨false, b⟩ = some (-1) ∧
    cmp_data_data env mtype prtype ⟨false, a⟩ ⟨true, b⟩ = some 1 := by
  refine ⟨rfl, rfl, rfl, rfl, rfl, rfl⟩

/-- Modelled from the spec for refinement checking (equal-length
byte-for-byte comparison, "ASCII digit order directly reflects numeric
order for equal-length unsigned digit strings"). -/
def bytesLexCmp : List Nat → List Nat → Int
  | x :: a, y :: b => if x < y then -1 else if y < x then 1 else bytesLexCmp a b
  | _, _ => 0

/-- Modelled from the spec for refinement checking: magnitude comparison
of two unsigned digit strings — strip leading `+`/`0`, the longer
remaining digit string has larger magnitude, equal lengths compared byte
for byte. -/
def digitsMagCmp (a b : List Nat) : Int :=
  let a2 := a.dropWhile isPlusOrZero
  let b2 := b.dropWhile isPlusOrZero
  if a2.length < b2.length then -1
  else if b2.length < a2.length then 1
  else bytesLexCmp a2 b2

/-- Modelled from the spec for refinement checking: the decimal-as-text
ordering as the spec words it — strip leading spaces (empty remainder is
out of bounds); if exactly one operand starts with `-` the non-negative
one is greater; when both are negative compare the magnitudes of the
digit strings after the sign and negate; otherwise compare magnitudes
directly. -/
def decimalSpecCmp (a b : List Nat) : Option Int :=
  let a1 := a.dropWhile isSpace
  let b1 := b.dropWhile isSpace
  if a1 = [] ∨ b1 = [] then none
  else
    let aneg := a1.head? = some 45
    let bneg := b1.head? = some 45
    if aneg ∧ ¬bneg then some (-1)
    else if bneg ∧ ¬aneg then some 1
    else if aneg ∧ bneg then some (-(digitsMagCmp a1.tail b1.tail))
    else some (digitsMagCmp a1 b1)

theorem decBytes_eq_mul (s : Int) :
    ∀ a b : List Nat, decBytes a b s = s * bytesLexCmp a b := by
  intro a
  induction a with
  | nil => intro b; cases b <;> simp [decBytes, bytesLexCmp]
  | cons x a ih =>
    intro b
    cases b with
    | nil => simp [decBytes, bytesLexCmp]
    | cons y b =>
      by_cases hxy : x = y
      · subst hxy
        simp [decBytes, bytesLexCmp, ih]
      · rcases Nat.lt_or_ge x y with h | h
        · have h2 : ¬ y < x := by omega
          simp [decBytes, bytesLexCmp, hxy, h, h2]
        · have h3 : y < x := by omega
          have h4 : ¬ x < y := by omega
          simp [decBytes, bytesLexCmp, hxy, h3, h4]

theorem decCore_eq_mul (a b : List Nat) (s : Int) :
    decCore a b s = s * digitsMagCmp a b := by
  unfold decCore digitsMagCmp
  rcases Nat.lt_trichotomy (a.dropWhile isPlusOrZero).length
      (b.dropWhile isPlusOrZero).length with h | h | h
  · have h1 : (a.dropWhile isPlusOrZero).length ≠ (b.dropWhile isPlusOrZero).length := by omega
    have h2 : ¬ (b.dropWhile isPlusOrZero).length < (a.dropWhile isPlusOrZero).length := by omega
    simp [h, h1, h2]
  · have h2 : ¬ (a.dropWhile isPlusOrZero).length < (b.dropWhile isPlusOrZero).length := by omega
    simp [h, h2, decBytes_eq_mul]
  · have h1 : (a.dropWhile isPlusOrZero).length ≠ (b.dropWhile isPlusOrZero).length := by omega
    have h2 : ¬ (a.dropWhile isPlusOrZero).length < (b.dropWhile isPlusOrZero).length := by omega
    simp [h, h1, h2]

theorem cmp_decimal_eq_spec (a b : List Nat) :
    cmp_decimal a b = decimalSpecCmp a b := by
  unfold cmp_decimal decimalSpecCmp
  cases ha : a.dropWhile isSpace with
  | nil => simp
  | cons x a2 =>
    cases hb : b.dropWhile isSpace with
    | nil => simp
    | cons y b2 =>
      simp only [List.cons_ne_nil, false_or, if_neg, List.head?_cons, List.tail_cons,
        Option.some.injEq]
      by_cases hx : x = 45
      · by_cases hy : y = 45
        · subst hx; subst hy
          simp [decCore_eq_mul]
        · subst hx
          simp [hy, Ne.symm hy]
      · by_cases hy : y = 45
        · subst hy
          simp [hx, Ne.symm hx]
        · simp [hx, hy, decCore_eq_mul]

/-- C3: the `DATA_DECIMAL` branch of `cmp_whole_field` implements the
spec's decimal-as-text ordering (strip leading spaces; exactly one
leading `-` makes the non-negative operand greater; strip leading
`+`/`0`; the longer remaining digit string has larger magnitude, the
result negated when both operands are negative; equal-length remainders
compared byte for byte), and in particular orders "-000123" below "-45",
"+007" equal to "7", and "100" above "99". -/
theorem C3_decimal_text_ordering (env : CmpEnv) (prtype : Nat) :
    (∀ a b, cmp_whole_field env DATA_DECIMAL prtype a b = decimalSpecCmp a b) ∧
    cmp_whole_field env DATA_DECIMAL prtype
      [45, 48, 48, 48, 49, 50, 51] [45, 52, 53] = some (-1) ∧
    cmp_whole_field env DATA_DECIMAL prtype [43, 48, 48, 55] [55] = some 0 ∧
    cmp_whole_field env DATA_DECIMAL prtype [49, 48, 48] [57, 57] = some 1 := by
  have hd : ∀ a b, cmp_whole_field env DATA_DECIMAL prtype a b = cmp_decimal a b := by
    intro a b
    simp [cmp_whole_field]
  refine ⟨fun a b => by rw [hd, cmp_decimal_eq_spec], ?_, ?_, ?_⟩ <;>
    rw [hd] <;> decide

/-- C10: the decimal branch stays inside the two operands (it returns an
ordinary result rather than the out-of-bounds marker) exactly when each
operand contains at least one byte that is not a leading space; an empty
or all-spaces operand makes the sign-test dereference fall outside the
value. -/
theorem C10_decimal_in_bounds (env : CmpEnv) (prtype : Nat) (a b : List Nat) :
    (cmp_whole_field env DATA_DECIMAL prtype a b).isSome ↔
      (a.dropWhile isSpace ≠ [] ∧ b.dropWhile isSpace ≠ []) := by
  have hd : cmp_whole_field env DATA_DECIMAL prtype a b = cmp_decimal a b := by
    simp [cmp_whole_field]
  rw [hd]
  unfold cmp_decimal
  cases ha : a.dropWhile isSpace with
  | nil => simp
  | cons x a2 =>
    cases hb : b.dropWhile isSpace with
    | nil => simp
    | cons y b2 =>
      constructor
      · intro
        exact ⟨List.cons_ne_nil x a2, List.cons_ne_nil y b2⟩
      · intro
        by_cases hx : x = 45 <;> by_cases hy : y = 45 <;> simp [hx, hy]

theorem memcmpMin_eq_zero_of_take :
    ∀ a b : List Nat, a.take b.length = b.take a.length → memcmpMin a b = 0 := by
  intro a
  induction a with
  | nil => intro b _; cases b <;> rfl
  | cons x a ih =>
    intro b h
    cases b with
    | nil => rfl
    | cons y b =>
      simp only [List.length_cons, List.take_succ_cons, List.cons.injEq] at h
      rw [memcmpMin, if_pos h.1]
      exact ih b h.2

theorem padRestCmp_replicate (p : Nat) (k : Nat) :
    padRestCmp p (List.replicate k p) = 0 := by
  induction k with
  | zero => rfl
  | succ k ih => simpa [List.replicate_succ, padRestCmp] using ih

/-- C2: for a binary-comparable type, when the shared-length byte
comparison of two non-NULL values ties and the lengths differ, the result
is decided by comparing the extra bytes of the longer value against the
pad character when the type has one (in particular a value followed by
trailing pad bytes compares equal to the value itself), and by "longer is
greater" when the type has none. -/
theorem C2_binary_padding (env : CmpEnv) (mtype prtype : Nat) (a b : List Nat)
    (hbin : binaryComparable mtype prtype = true)
    (hpre : a.take b.length = b.take a.length)
    (hlen : a.length ≠ b.length) :
    (∀ p, env.padChar mtype prtype = some p →
      cmp_data env mtype prtype ⟨false, a⟩ ⟨false, b⟩ =
        (if b.length < a.length then some (padRestCmp p (a.drop b.length))
         else some (-(padRestCmp p (b.drop a.length)))) ∧
      ∀ k, b = a ++ List.replicate k p →
        cmp_data env mtype prtype ⟨false, a⟩ ⟨false, b⟩ = some 0) ∧
    (env.padChar mtype prtype = none →
      cmp_data env mtype prtype ⟨false, a⟩ ⟨false, b⟩ =
        some (if b.length < a.length then 1 else -1)) := by
  have hm : memcmpMin a b = 0 := memcmpMin_eq_zero_of_take a b hpre
  have key : cmp_data env mtype prtype ⟨false, a⟩ ⟨false, b⟩ =
      match env.padChar mtype prtype with
      | none => some (if b.length < a.length then 1 else -1)
      | some pad =>
        if b.length < a.length then some (padRestCmp pad (a.drop b.length))
        else some (-(padRestCmp pad (b.drop a.length))) := by
    unfold cmp_data
    simp [hbin, hm, hlen]
  have keyS : ∀ p, env.padChar mtype prtype = some p →
      cmp_data env mtype prtype ⟨false, a⟩ ⟨false, b⟩ =
        (if b.length < a.length then some (padRestCmp p (a.drop b.length))
         else some (-(padRestCmp p (b.drop a.length)))) := by
    intro p hp
    rw [key, hp]
  refine ⟨fun p hp => ⟨keyS p hp, fun k hk => ?_⟩, fun hp => ?_⟩
  · subst hk
    have hnb : ¬ (a ++ List.replicate k p).length < a.length := by
      simp
    rw [keyS p hp, if_neg hnb, List.drop_left, padRestCmp_replicate, neg_zero]
  · rw [key, hp]

def envSimple : CmpEnv where
  padChar := fun _ _ => some 80
  getCharset := fun _ => true
  strnncollsp := fun _ _ _ => 0
  latin1 := fun _ _ => 0
  dblGt := fun _ _ => false
  fltGt := fun _ _ => false

theorem C2_binary_padding_witness :
    cmp_data envSimple DATA_BINARY 0 ⟨false, [65, 66]⟩ ⟨false, [65, 66, 80, 80]⟩ =
      some 0 :=
  ((C2_binary_padding envSimple DATA_BINARY 0 [65, 66] [65, 66, 80, 80]
      (by decide) (by decide) (by decide)).1 80 rfl).2 2 rfl

theorem memcmpMin_antisym : ∀ a b : List Nat, memcmpMin b a = -memcmpMin a b := by
  intro a
  induction a with
  | nil => intro b; cases b <;> simp [memcmpMin]
  | cons x a ih =>
    intro b
    cases b with
    | nil => simp [memcmpMin]
    | cons y b =>
      by_cases h : x = y
      · subst h
        simp [memcmpMin, ih]
      · rcases Nat.lt_or_ge x y with hlt | hge
        · have h2 : ¬ y < x := by omega
          have hne : ¬ y = x := by omega
          simp [memcmpMin, h, hne, hlt, h2]
        · have hyx : y < x := by omega
          have hne : ¬ y = x := fun hh => h hh.symm
          have h4 : ¬ x < y := by omega
          simp [memcmpMin, h, hne, hyx, h4]

theorem bytesLexCmp_antisym : ∀ a b : List Nat, bytesLexCmp b a = -bytesLexCmp a b := by
  intro a
  induction a with
  | nil => intro b; cases b <;> simp [bytesLexCmp]
  | cons x a ih =>
    intro b
    cases b with
    | nil => simp [bytesLexCmp]
    | cons y b =>
      by_cases h : x = y
      · subst h
        simp [bytesLexCmp, ih]
      · rcases Nat.lt_or_ge x y with hlt | hge
        · have h2 : ¬ y < x := by omega
          simp [bytesLexCmp, hlt, h2]
        · have hyx : y < x := by omega
          have h4 : ¬ x < y := by omega
          simp [bytesLexCmp, hyx, h4]

theorem digitsMagCmp_antisym (a b : List Nat) :
    digitsMagCmp b a = -digitsMagCmp a b := by
  unfold digitsMagCmp
  rcases Nat.lt_trichotomy (a.dropWhile isPlusOrZero).length
      (b.dropWhile isPlusOrZero).length with h | h | h
  · have h2 : ¬ (b.dropWhile isPlusOrZero).length < (a.dropWhile isPlusOrZero).length := by
      omega
    simp [h, h2]
  · have h2 : ¬ (a.dropWhile isPlusOrZero).length < (b.dropWhile isPlusOrZero).length := by
      omega
    have h3 : ¬ (b.dropWhile isPlusOrZero).length < (a.dropWhile isPlusOrZero).length := by
      omega
    simp only [h2, h3, if_neg, ite_false]
    exact bytesLexCmp_antisym (a.dropWhile isPlusOrZero) (b.dropWhile isPlusOrZero)
  · have h2 : ¬ (a.dropWhile isPlusOrZero).length < (b.dropWhile isPlusOrZero).length := by
      omega
    simp [h, h2]

theorem decCore_antisym (a b : List Nat) (s : Int) :
    decCore b a s = -decCore a b s := by
  rw [decCore_eq_mul, decCore_eq_mul, digitsMagCmp_antisym a b]
  ring

theorem cmp_decimal_antisym (a b : List Nat) :
    cmp_decimal b a = (cmp_decimal a b).map (fun r => -r) := by
  unfold cmp_decimal
  cases ha : a.dropWhile isSpace with
  | nil =>
    cases hb : b.dropWhile isSpace with
    | nil => rfl
    | cons y b2 => rfl
  | cons x a2 =>
    cases hb : b.dropWhile isSpace with
    | nil => rfl
    | cons y b2 =>
      by_cases hx : x = 45 <;> by_cases hy : y = 45
      · subst hx; subst hy
        simp [decCore_antisym a2 b2 (-1)]
      · subst hx
        simp [hy, Ne.symm hy]
      · subst hy
        simp [hx, Ne.symm hx]
      · simp [hx, hy, decCore_antisym (x :: a2) (y :: b2) 1]

theorem innobase_mysql_cmp_antisym (env : CmpEnv)
    (hcoll1 : ∀ cs a b, env.strnncollsp cs a b < 0 ↔ 0 < env.strnncollsp cs b a)
    (hcoll0 : ∀ cs a b, env.strnncollsp cs a b = 0 ↔ env.strnncollsp cs b a = 0)
    (prtype : Nat) (a b : List Nat) :
    innobase_mysql_cmp env prtype b a =
      (innobase_mysql_cmp env prtype a b).map (fun r => -r) := by
  unfold innobase_mysql_cmp
  cases hg : env.getCharset (dtype_get_charset_coll prtype)
  · simp [hg]
  · simp only [hg, if_pos rfl, if_true]
    rcases Int.lt_trichotomy (env.strnncollsp (dtype_get_charset_coll prtype) a b) 0
      with h | h | h
    · have h1 : 0 < env.strnncollsp (dtype_get_charset_coll prtype) b a :=
        (hcoll1 _ a b).mp h
      have h2 : ¬ env.strnncollsp (dtype_get_charset_coll prtype) b a < 0 := by omega
      have h3 : ¬ env.strnncollsp (dtype_get_charset_coll prtype) b a = 0 := by omega
      simp [h, h2, h3]
    · have h1 : env.strnncollsp (dtype_get_charset_coll prtype) b a = 0 :=
        (hcoll0 _ a b).mp h
      have h2 : ¬ env.strnncollsp (dtype_get_charset_coll prtype) a b < 0 := by omega
      simp [h, h1, h2]
    · have h1 : env.strnncollsp (dtype_get_charset_coll prtype) b a < 0 :=
        (hcoll1 _ b a).mpr h
      have h2 : ¬ env.strnncollsp (dtype_get_charset_coll prtype) a b < 0 := by omega
      have h3 : ¬ env.strnncollsp (dtype_get_charset_coll prtype) a b = 0 := by omega
      simp [h1, h2, h3]
theorem cmp_whole_field_antisym (env : CmpEnv)
    (hcoll1 : ∀ cs a b, env.strnncollsp cs a b < 0 ↔ 0 < env.strnncollsp cs b a)
    (hcoll0 : ∀ cs a b, env.strnncollsp cs a b = 0 ↔ env.strnncollsp cs b a = 0)
    (hlat1 : ∀ a b, env.latin1 a b < 0 ↔ 0 < env.latin1 b a)
    (hlat0 : ∀ a b, env.latin1 a b = 0 ↔ env.latin1 b a = 0)
    (hdbl : ∀ a b, env.dblGt a b = true → env.dblGt b a = false)
    (hflt : ∀ a b, env.fltGt a b = true → env.fltGt b a = false)
    (mtype prtype : Nat) (a b : List Nat) :
    cmp_whole_field env mtype prtype b a =
      (cmp_whole_field env mtype prtype a b).map (fun r => -r) := by
  unfold cmp_whole_field
  by_cases e1 : mtype = DATA_DECIMAL
  · simp [e1, cmp_decimal_antisym a b]
  · by_cases e2 : mtype = DATA_DOUBLE
    · subst e2
      simp only [DATA_DECIMAL, DATA_DOUBLE] at e1 ⊢
      simp only [if_neg e1, if_pos rfl, Option.map_some']
      cases hd : env.dblGt a b
      · cases hd2 : env.dblGt b a
        · simp [hd, hd2]
        · simp [hd, hd2]
      · have hd2 : env.dblGt b a = false := hdbl a b hd
        simp [hd, hd2]
    · by_cases e3 : mtype = DATA_FLOAT
      · subst e3
        simp only [DATA_DECIMAL, DATA_DOUBLE, DATA_FLOAT] at e1 e2 ⊢
        simp only [if_neg e1, if_neg e2, if_pos rfl, Option.map_some']
        cases hf : env.fltGt a b
        · cases hf2 : env.fltGt b a
          · simp [hf, hf2]
          · simp [hf, hf2]
        · have hf2 : env.fltGt b a = false := hflt a b hf
          simp [hf, hf2]
      · by_cases e4 : mtype = DATA_VARCHAR ∨ mtype = DATA_CHAR
        · simp only [if_neg e1, if_neg e2, if_neg e3, if_pos e4, Option.map_some']
          rcases Int.lt_trichotomy (env.latin1 a b) 0 with h | h | h
          · have h1 : 0 < env.latin1 b a := (hlat1 a b).mp h
            have h2 : ¬ env.latin1 b a < 0 := by omega
            have h3 : ¬ env.latin1 b a = 0 := by omega
            simp [h, h2, h3]
          · have h1 : env.latin1 b a = 0 := (hlat0 a b).mp h
            have h2 : ¬ env.latin1 a b < 0 := by omega
            simp [h, h1, h2]
          · have h1 : env.latin1 b a < 0 := (hlat1 b a).mpr h
            have h2 : ¬ env.latin1 a b < 0 := by omega
            have h3 : ¬ env.latin1 a b = 0 := by omega
            simp [h1, h2, h3]
        · by_cases e5 : mtype = DATA_BLOB ∨ mtype = DATA_VARMYSQL ∨ mtype = DATA_MYSQL
          · simp only [if_neg e1, if_neg e2, if_neg e3, if_neg e4, if_pos e5]
            exact innobase_mysql_cmp_antisym env hcoll1 hcoll0 prtype a b
          · by_cases e6 : mtype = DATA_GEOMETRY
            · subst e6
              simp [DATA_GEOMETRY, DATA_DECIMAL, DATA_DOUBLE, DATA_FLOAT,
                DATA_VARCHAR, DATA_CHAR, DATA_BLOB, DATA_VARMYSQL, DATA_MYSQL]
            · simp [if_neg e1, if_neg e2, if_neg e3, if_neg e4, if_neg e5, if_neg e6]

/-- C8: scalar field comparison is antisymmetric — for every column type
and every pair of encoded values (NULL or non-NULL, across the
decimal-text, float/double, collated, binary and padded-binary paths),
swapping the operands of `cmp_data` negates the result, provided the
opaque collation callbacks are sign-antisymmetric and the IEEE
greater-than tests are asymmetric (which IEEE comparison is, also in the
presence of NaN). -/
theorem C8_antisymmetry (env : CmpEnv) (mtype prtype : Nat) (v1 v2 : FieldVal)
    (hcoll1 : ∀ cs a b, env.strnncollsp cs a b < 0 ↔ 0 < env.strnncollsp cs b a)
    (hcoll0 : ∀ cs a b, env.strnncollsp cs a b = 0 ↔ env.strnncollsp cs b a = 0)
    (hlat1 : ∀ a b, env.latin1 a b < 0 ↔ 0 < env.latin1 b a)
    (hlat0 : ∀ a b, env.latin1 a b = 0 ↔ env.latin1 b a = 0)
    (hdbl : ∀ a b, env.dblGt a b = true → env.dblGt b a = false)
    (hflt : ∀ a b, env.fltGt a b = true → env.fltGt b a = false) :
    cmp_data env mtype prtype v2 v1 =
      (cmp_data env mtype prtype v1 v2).map (fun r => -r) := by
  obtain ⟨n1, a⟩ := v1
  obtain ⟨n2, b⟩ := v2
  cases n1 <;> cases n2
  · -- both operands non-NULL
    by_cases hb : binaryComparable mtype prtype = true
    · by_cases hm0 : memcmpMin a b = 0
      · have hm0' : memcmpMin b a = 0 := by
          rw [memcmpMin_antisym a b, hm0, neg_zero]
        by_cases hl : a.length = b.length
        · unfold cmp_data
          simp [hb, hm0, hm0', hl]
        · cases hp : env.padChar mtype prtype with
          | none =>
            unfold cmp_data
            rcases Nat.lt_or_ge a.length b.length with hab | hab
            · have h1 : ¬ b.length < a.length := by omega
              simp [hb, hm0, hm0', hl, Ne.symm hl, hp, hab, h1]
            · have hba : b.length < a.length := by omega
              have h2 : ¬ a.length < b.length := by omega
              simp [hb, hm0, hm0', hl, Ne.symm hl, hp, hba, h2]
          | some p =>
            unfold cmp_data
            rcases Nat.lt_or_ge a.length b.length with hab | hab
            · have h1 : ¬ b.length < a.length := by omega
              simp [hb, hm0, hm0', hl, Ne.symm hl, hp, hab, h1]
            · have hba : b.length < a.length := by omega
              have h2 : ¬ a.length < b.length := by omega
              simp [hb, hm0, hm0', hl, Ne.symm hl, hp, hba, h2]
      · have hma := memcmpMin_antisym a b
        have hm0' : ¬ memcmpMin b a = 0 := by
          rw [hma]
          intro hcon
          apply hm0
          omega
        unfold cmp_data
        simp [hb, hm0, hm0', hma]
    · unfold cmp_data
      simp only [Bool.or_self, if_false, ite_false, hb, Bool.false_eq_true]
      exact cmp_whole_field_antisym env hcoll1 hcoll0 hlat1 hlat0 hdbl hflt
        mtype prtype a b
  · simp [cmp_data]
  · simp [cmp_data]
  · simp [cmp_data]

theorem C8_antisymmetry_witness :
    cmp_data envSimple DATA_DECIMAL 0 ⟨false, [57, 57]⟩ ⟨false, [49, 48, 48]⟩ =
      (cmp_data envSimple DATA_DECIMAL 0 ⟨false, [49, 48, 48]⟩
        ⟨false, [57, 57]⟩).map (fun r => -r) :=
  C8_antisymmetry envSimple DATA_DECIMAL 0 ⟨false, [49, 48, 48]⟩ ⟨false, [57, 57]⟩
    (by intro cs a b; simp [envSimple]) (by intro cs a b; simp [envSimple])
    (by intro a b; simp [envSimple]) (by intro a b; simp [envSimple])
    (by intro a b h; simp [envSimple] at h) (by intro a b h; simp [envSimple] at h)

def envC9 : CmpEnv where
  padChar := fun _ _ => none
  getCharset := fun _ => true
  strnncollsp := fun _ a b => memcmpMin a b
  latin1 := fun _ _ => 0
  dblGt := fun _ _ => false
  fltGt := fun _ _ => false

/-- C9 counterexample: a binary-flagged BLOB reaching `cmp_whole_field`
is NOT treated as a no-op equal — the error is logged and control falls
through to the collation comparison. The precise type 4129792 carries the
binary-type flag and charset-collation id 63 (the server's binary
collation, which the charset lookup resolves); the collation
distinguishes the operands, and the function returns its result (-1
here), not 0. -/
theorem C9_counterexample :
    hasBinFlag 4129792 = true ∧
    dtype_get_charset_coll 4129792 = 63 ∧
    innobase_mysql_cmp envC9 4129792 [65] [66] = some (-1) ∧
    cmp_whole_field envC9 DATA_BLOB 4129792 [65] [66] = some (-1) ∧
    cmp_whole_field envC9 DATA_BLOB 4129792 [65] [66] ≠ some 0 := by
  refine ⟨rfl, rfl, rfl, rfl, ?_⟩
  decide

/-- C9 (amended): when a binary-flagged BLOB reaches `cmp_whole_field`,
the condition is logged (and asserted in debug builds) but the code then
falls through to the collated-string path: the comparison is exactly
`innobase_mysql_cmp` on the column's charset-collation — the collation's
normalized sign when the lookup succeeds, and the fatal
charset-lookup-failure path otherwise. -/
theorem C9_amended_blob_fallthrough (env : CmpEnv) (prtype : Nat)
    (a b : List Nat) (h : hasBinFlag prtype = true) :
    cmp_whole_field env DATA_BLOB prtype a b =
      innobase_mysql_cmp env prtype a b := by
  simp [cmp_whole_field, DATA_BLOB, DATA_DECIMAL, DATA_DOUBLE, DATA_FLOAT,
    DATA_VARCHAR, DATA_CHAR]

theorem C9_amended_blob_fallthrough_witness :
    cmp_whole_field envC9 DATA_BLOB 4129792 [66] [65] =
      innobase_mysql_cmp envC9 4129792 [66] [65] :=
  C9_amended_blob_fallthrough envC9 4129792 [66] [65] (by decide)

/-- Modelled from the spec: the `REC_INFO_MIN_REC_FLAG` info bit marking
the predefined minimum record (bit 4 of the info bits). -/
def REC_INFO_MIN_REC_FLAG : Nat := 16

/-- Tests the minimum-record flag in a bundle of info bits
(`info & REC_INFO_MIN_REC_FLAG` in the source). -/
def minRecFlag (bits : Nat) : Bool := bits / 16 % 2 = 1

/-- A field of a logical tuple (`dfield_t`): its column type and its
encoded value. -/
structure DField where
  mtype : Nat
  prtype : Nat
  val : FieldVal
deriving DecidableEq

/-- A logical search tuple (`dtuple_t`): info bits (which may carry the
minimum-record flag) and the typed fields. -/
structure Dtuple where
  info_bits : Nat
  fields : List DField
deriving DecidableEq

/-- One field slot of a physical record as exposed by
`rec_get_nth_field_ext`: either externally stored, or an in-page value
(whose length may be the SQL NULL sentinel). -/
inductive RecField where
  | ext : RecField
  | stored : FieldVal → RecField
deriving DecidableEq

/-- A physical record (`rec_t` together with its offsets): info bits and
the per-field views. -/
structure Rec where
  info_bits : Nat
  fields : List RecField
deriving DecidableEq

/-- One iteration body of the field-matching loop of
`cmp_dtuple_rec_with_match_low`: fetch tuple field `cur` and record field
`cur`, and compare them with `cmp_data`. An externally stored record
field is `ut_error` (fatal), and an out-of-range field access is
undefined behaviour; both are modelled as `none`, as is a `cmp_data`
comparison that itself has no defined result. -/
def fieldStep (env : CmpEnv) (dt : List DField) (rt : List RecField)
    (cur : Nat) : Option Int :=
  match dt.get? cur, rt.get? cur with
  | some df, some (RecField.stored rv) =>
    cmp_data env df.mtype df.prtype df.val rv
  | _, _ => none

/-- The field-matching loop of `cmp_dtuple_rec_with_match_low`
(`for (; cur_field < n_cmp; cur_field++)`), written with the explicit
iteration count `left = n_cmp - cur_field`: compare field `cur` through
`fieldStep`, stop at the first nonzero result, and report the field index
at which the loop stopped. -/
def cmpFieldsAux (env : CmpEnv) (dt : List DField) (rt : List RecField) :
    Nat → Nat → Option (Int × Nat)
  | 0, cur => some (0, cur)
  | left + 1, cur =>
    match fieldStep env dt rt cur with
    | some r =>
      if r = 0 then cmpFieldsAux env dt rt left (cur + 1) else some (r, cur)
    | none => none

/-- Embedding of `cmp_dtuple_rec_with_match_low`: starting from the
already-matched count, resolve by the minimum-record info bits when
starting from field 0 (the matched count stays 0 in that case), and
otherwise run the field-matching loop up to `n_cmp`. Returns the order
result together with the updated matched-fields count. -/
def cmp_dtuple_rec_with_match_low (env : CmpEnv) (dtuple : Dtuple) (rcd : Rec)
    (n_cmp matched : Nat) : Option (Int × Nat) :=
  if matched = 0 then
    if minRecFlag rcd.info_bits then
      some (if minRecFlag dtuple.info_bits then 0 else 1, 0)
    else if minRecFlag dtuple.info_bits then
      some (-1, 0)
    else
      cmpFieldsAux env dtuple.fields rcd.fields n_cmp 0
  else
    cmpFieldsAux env dtuple.fields rcd.fields (n_cmp - matched) matched

def dtupleC4 : Dtuple :=
  { info_bits := 16
    fields := [{ mtype := 4, prtype := 0, val := ⟨false, [1]⟩ }] }

def recC4 : Rec :=
  { info_bits := 16
    fields := [RecField.stored ⟨false, [2]⟩] }

/-- C4 counterexample: when both the record and the tuple carry the
minimum-record marker, the comparison does NOT proceed to compare the
fields — it resolves immediately as equal with matched count 0, even
though the single field in the compared range differs (comparing it would
give -1). -/
theorem C4_counterexample :
    cmp_dtuple_rec_with_match_low envSimple dtupleC4 recC4 1 0 = some (0, 0) ∧
    cmp_data envSimple 4 0 ⟨false, [1]⟩ ⟨false, [2]⟩ = some (-1) := by
  refine ⟨rfl, rfl⟩

/-- C4 (amended): starting from matched count 0, if the record carries the
minimum-record marker the comparison resolves immediately — as equal (0)
when the tuple also carries the marker, as tuple-greater (1) otherwise —
without comparing any field; if only the tuple carries the marker the
result is -1; the matched count is 0 in every such case. -/
theorem C4_min_rec_sentinel (env : CmpEnv) (dtuple : Dtuple) (rcd : Rec)
    (n_cmp : Nat) :
    (minRecFlag rcd.info_bits = true →
      cmp_dtuple_rec_with_match_low env dtuple rcd n_cmp 0 =
        some (if minRecFlag dtuple.info_bits then 0 else 1, 0)) ∧
    (minRecFlag rcd.info_bits = false → minRecFlag dtuple.info_bits = true →
      cmp_dtuple_rec_with_match_low env dtuple rcd n_cmp 0 = some (-1, 0)) := by
  constructor
  · intro hr
    simp [cmp_dtuple_rec_with_match_low, hr]
  · intro hr ht
    simp [cmp_dtuple_rec_with_match_low, hr, ht]

theorem C4_min_rec_sentinel_witness :
    cmp_dtuple_rec_with_match_low envSimple dtupleC4
      { info_bits := 0, fields := [RecField.stored ⟨false, [2]⟩] } 1 0 =
      some (-1, 0) :=
  (C4_min_rec_sentinel envSimple dtupleC4
    { info_bits := 0, fields := [RecField.stored ⟨false, [2]⟩] } 1).2
    (by decide) (by decide)

theorem cmpFieldsAux_succ_none (env : CmpEnv) (dt : List DField)
    (rt : List RecField) (l cur : Nat)
    (hs : fieldStep env dt rt cur = none) :
    cmpFieldsAux env dt rt (l + 1) cur = none := by
  unfold cmpFieldsAux
  rw [hs]

theorem cmpFieldsAux_succ_some (env : CmpEnv) (dt : List DField)
    (rt : List RecField) (l cur : Nat) (r : Int)
    (hs : fieldStep env dt rt cur = some r) :
    cmpFieldsAux env dt rt (l + 1) cur =
      if r = 0 then cmpFieldsAux env dt rt l (cur + 1) else some (r, cur) := by
  conv_lhs => rw [cmpFieldsAux]
  rw [hs]

theorem cmpFieldsAux_full_match (env : CmpEnv) (dt : List DField)
    (rt : List RecField) :
    ∀ l cur m, cmpFieldsAux env dt rt l cur = some (0, m) → m = cur + l := by
  intro l
  induction l with
  | zero =>
    intro cur m h
    simp [cmpFieldsAux] at h
    omega
  | succ l ih =>
    intro cur m h
    cases hs : fieldStep env dt rt cur with
    | none =>
      rw [cmpFieldsAux_succ_none env dt rt l cur hs] at h
      exact absurd h (by simp)
    | some r =>
      rw [cmpFieldsAux_succ_some env dt rt l cur r hs] at h
      by_cases hr : r = 0
      · rw [if_pos hr] at h
        have := ih (cur + 1) m h
        omega
      · rw [if_neg hr] at h
        simp only [Option.some.injEq, Prod.mk.injEq] at h
        exact absurd h.1 hr

theorem cmpFieldsAux_stop (env : CmpEnv) (dt : List DField)
    (rt : List RecField) :
    ∀ l cur r m, cmpFieldsAux env dt rt l cur = some (r, m) → r ≠ 0 →
      cur ≤ m ∧ m < cur + l ∧ fieldStep env dt rt m = some r := by
  intro l
  induction l with
  | zero =>
    intro cur r m h hr
    simp [cmpFieldsAux] at h
    exact absurd h.1.symm hr
  | succ l ih =>
    intro cur r m h hr
    cases hs : fieldStep env dt rt cur with
    | none =>
      rw [cmpFieldsAux_succ_none env dt rt l cur hs] at h
      exact absurd h (by simp)
    | some r0 =>
      rw [cmpFieldsAux_succ_some env dt rt l cur r0 hs] at h
      by_cases hr0 : r0 = 0
      · rw [if_pos hr0] at h
        obtain ⟨h1, h2, h3⟩ := ih (cur + 1) r m h hr
        exact ⟨by omega, by omega, h3⟩
      · rw [if_neg hr0] at h
        simp only [Option.some.injEq, Prod.mk.injEq] at h
        obtain ⟨hrr, hmm⟩ := h
        subst hrr
        subst hmm
        exact ⟨le_refl _, by omega, hs⟩

theorem cmpFieldsAux_extend (env : CmpEnv) (dt : List DField)
    (rt : List RecField) :
    ∀ l l' cur r m, cmpFieldsAux env dt rt l cur = some (r, m) → r ≠ 0 →
      l ≤ l' → cmpFieldsAux env dt rt l' cur = some (r, m) := by
  intro l
  induction l with
  | zero =>
    intro l' cur r m h hr _
    simp [cmpFieldsAux] at h
    exact absurd h.1.symm hr
  | succ l ih =>
    intro l' cur r m h hr hle
    obtain ⟨l'', rfl⟩ : ∃ k, l' = k + 1 := ⟨l' - 1, by omega⟩
    cases hs : fieldStep env dt rt cur with
    | none =>
      rw [cmpFieldsAux_succ_none env dt rt l cur hs] at h
      exact absurd h (by simp)
    | some r0 =>
      rw [cmpFieldsAux_succ_some env dt rt l cur r0 hs] at h
      rw [cmpFieldsAux_succ_some env dt rt l'' cur r0 hs]
      by_cases hr0 : r0 = 0
      · rw [if_pos hr0] at h ⊢
        exact ih l'' (cur + 1) r m h hr (by omega)
      · rw [if_neg hr0] at h ⊢
        exact h

theorem cmpFieldsAux_compose (env : CmpEnv) (dt : List DField)
    (rt : List RecField) :
    ∀ l extra cur, cmpFieldsAux env dt rt l cur = some (0, cur + l) →
      cmpFieldsAux env dt rt (l + extra) cur =
        cmpFieldsAux env dt rt extra (cur + l) := by
  intro l
  induction l with
  | zero =>
    intro extra cur _
    simp
  | succ l ih =>
    intro extra cur h
    cases hs : fieldStep env dt rt cur with
    | none =>
      rw [cmpFieldsAux_succ_none env dt rt l cur hs] at h
      exact absurd h (by simp)
    | some r0 =>
      rw [cmpFieldsAux_succ_some env dt rt l cur r0 hs] at h
      by_cases hr0 : r0 = 0
      · rw [if_pos hr0] at h
        have hstep : cmpFieldsAux env dt rt l (cur + 1) = some (0, (cur + 1) + l) := by
          have harith : cur + (l + 1) = (cur + 1) + l := by omega
          rw [h, harith]
        have hrec := ih extra (cur + 1) hstep
        have hsucc : l + 1 + extra = (l + extra) + 1 := by omega
        rw [hsucc, cmpFieldsAux_succ_some env dt rt (l + extra) cur r0 hs,
          if_pos hr0, hrec]
        congr 1
        omega
      · rw [if_neg hr0] at h
        simp only [Option.some.injEq, Prod.mk.injEq] at h
        exact absurd h.1 hr0

/-- C7: tuple-vs-record comparison is resumable — for every tuple and
record with no externally stored field among the first five compared
fields, comparing fields [0,3) from matched count 0 and then resuming
over [0,5) with the returned matched count yields exactly the same final
result and matched count as a single comparison over [0,5). -/
theorem C7_resumable (env : CmpEnv) (dtuple : Dtuple) (rcd : Rec)
    (r1 : Int) (m1 : Nat)
    (hext : ∀ n, n < 5 → rcd.fields.get? n ≠ some RecField.ext)
    (h1 : cmp_dtuple_rec_with_match_low env dtuple rcd 3 0 = some (r1, m1)) :
    cmp_dtuple_rec_with_match_low env dtuple rcd 5 m1 =
      cmp_dtuple_rec_with_match_low env dtuple rcd 5 0 := by
  by_cases hm : m1 = 0
  · rw [hm]
  · unfold cmp_dtuple_rec_with_match_low at h1
    simp only [if_pos rfl] at h1
    cases hrf : minRecFlag rcd.info_bits with
    | true =>
      rw [hrf] at h1
      simp only [if_pos rfl, ite_true, Option.some.injEq, Prod.mk.injEq] at h1
      exact absurd h1.2.symm hm
    | false =>
      rw [hrf] at h1
      simp only [Bool.false_eq_true, if_false, ite_false] at h1
      cases htf : minRecFlag dtuple.info_bits with
      | true =>
        rw [htf] at h1
        simp only [if_pos rfl, ite_true, Option.some.injEq, Prod.mk.injEq] at h1
        exact absurd h1.2.symm hm
      | false =>
        rw [htf] at h1
        simp only [Bool.false_eq_true, if_false, ite_false] at h1
        unfold cmp_dtuple_rec_with_match_low
        rw [if_neg hm, if_pos rfl, hrf, htf]
        simp only [Bool.false_eq_true, if_false, ite_false]
        by_cases hr : r1 = 0
        · subst hr
          have hm3 : m1 = 3 :=
            cmpFieldsAux_full_match env dtuple.fields rcd.fields 3 0 m1 h1
          subst hm3
          have hcomp := cmpFieldsAux_compose env dtuple.fields rcd.fields 3 2 0
            (by simpa using h1)
          simpa using hcomp.symm
        · obtain ⟨hge, hlt, hstep⟩ :=
            cmpFieldsAux_stop env dtuple.fields rcd.fields 3 0 r1 m1 h1 hr
          have g2 : cmpFieldsAux env dtuple.fields rcd.fields 5 0 = some (r1, m1) :=
            cmpFieldsAux_extend env dtuple.fields rcd.fields 3 5 0 r1 m1 h1 hr
              (by omega)
          have g1 : cmpFieldsAux env dtuple.fields rcd.fields (5 - m1) m1 =
              some (r1, m1) := by
            obtain ⟨k, hk⟩ : ∃ k, 5 - m1 = k + 1 := ⟨5 - m1 - 1, by omega⟩
            rw [hk, cmpFieldsAux_succ_some env dtuple.fields rcd.fields k m1 r1 hstep,
              if_neg hr]
          rw [g1, g2]

def dtupleC7 : Dtuple :=
  { info_bits := 0
    fields := [{ mtype := 4, prtype := 0, val := ⟨false, [1]⟩ },
               { mtype := 4, prtype := 0, val := ⟨false, [2]⟩ },
               { mtype := 4, prtype := 0, val := ⟨false, [3]⟩ },
               { mtype := 4, prtype := 0, val := ⟨false, [4]⟩ },
               { mtype := 4, prtype := 0, val := ⟨false, [9]⟩ }] }

def recC7 : Rec :=
  { info_bits := 0
    fields := [RecField.stored ⟨false, [1]⟩, RecField.stored ⟨false, [2]⟩,
               RecField.stored ⟨false, [3]⟩, RecField.stored ⟨false, [4]⟩,
               RecField.stored ⟨false, [5]⟩] }

theorem C7_resumable_witness :
    cmp_dtuple_rec_with_match_low envSimple dtupleC7 recC7 5 3 =
      cmp_dtuple_rec_with_match_low envSimple dtupleC7 recC7 5 0 :=
  C7_resumable envSimple dtupleC7 recC7 0 3 (by decide) (by decide)

/-- An index descriptor (`dict_index_t`) as the comparator consumes it:
per-column (mtype, prtype), whether this is the universal insert-buffer
index (`dict_index_is_univ`, every field then compares as raw binary),
the uniqueness-prefix length (`dict_index_get_n_unique`), the total field
count (`dict_index_get_n_fields`), and whether the index enforces
uniqueness (`dict_index_is_unique`). -/
structure DictIndex where
  cols : List (Nat × Nat)
  is_univ : Bool
  n_uniq : Nat
  n_fields : Nat
  is_unique : Bool
deriving DecidableEq

/-- One iteration body of the field loop of `cmp_rec_rec_with_match`:
resolve the column type from the index (raw binary for the universal
index), fetch both records' field `cur`, and compare with `cmp_data`;
with `nulls_unequal` set, a NULL-NULL pair resolves immediately as -1.
An externally stored field (whose locally stored prefix the model does
not carry; debug builds assert it absent) and an out-of-range column
lookup are modelled as `none`. -/
def recRecStep (env : CmpEnv) (idx : DictIndex) (f1 f2 : List RecField)
    (nulls_unequal : Bool) (cur : Nat) : Option Int :=
  match (if idx.is_univ then some (DATA_BINARY, 0) else idx.cols.get? cur),
      f1.get? cur, f2.get? cur with
  | some (mt, pt), some (RecField.stored v1), some (RecField.stored v2) =>
    if nulls_unequal && v1.isNull && v2.isNull then some (-1)
    else cmp_data env mt pt v1 v2
  | _, _, _ => none

/-- The field loop of `cmp_rec_rec_with_match`
(`for (cur_field = 0; cur_field < rec1_n_fields && cur_field < rec2_n_fields; ...)`),
written with the explicit iteration count: stop at the first nonzero
result, reporting the field index reached. -/
def recRecAux (env : CmpEnv) (idx : DictIndex) (f1 f2 : List RecField)
    (nulls_unequal : Bool) : Nat → Nat → Option (Int × Nat)
  | 0, cur => some (0, cur)
  | left + 1, cur =>
    match recRecStep env idx f1 f2 nulls_unequal cur with
    | some r =>
      if r = 0 then recRecAux env idx f1 f2 nulls_unequal left (cur + 1)
      else some (r, cur)
    | none => none

/-- Embedding of `cmp_rec_rec_with_match`. The local loop counter
`cur_field` is declared without an initializer in the source, and the two
minimum-record branches jump to `order_resolved` (which stores
`cur_field` into the output matched count) before the loop initializes
it: `garbage` models the indeterminate value `cur_field` holds there.
On the normal path the loop runs over the common first fields, bounded
by `min` of the two field counts. -/
def cmp_rec_rec_with_match (env : CmpEnv) (idx : DictIndex) (rec1 rec2 : Rec)
    (nulls_unequal : Bool) (garbage : Nat) : Option (Int × Nat) :=
  if minRecFlag rec1.info_bits then some (-1, garbage)
  else if minRecFlag rec2.info_bits then some (1, garbage)
  else
    recRecAux env idx rec1.fields rec2.fields nulls_unequal
      (min rec1.fields.length rec2.fields.length) 0

def idxC5 : DictIndex :=
  { cols := [(4, 0)], is_univ := false, n_uniq := 1, n_fields := 1,
    is_unique := false }

def recC5min : Rec := { info_bits := 16, fields := [RecField.stored ⟨false, [1]⟩] }

def recC5b : Rec := { info_bits := 0, fields := [RecField.stored ⟨false, [2]⟩] }

/-- C5: evaluation of the code at the failing input — when the first
record carries the minimum-record flag, the reported matched count is
whatever indeterminate value the uninitialized loop counter holds (here
5 or 7), not the well-defined value 0 the specification promises: the
output depends on the garbage value, so it is not well defined. -/
theorem C5_matched_count_indeterminate :
    cmp_rec_rec_with_match envSimple idxC5 recC5min recC5b false 5 =
      some (-1, 5) ∧
    cmp_rec_rec_with_match envSimple idxC5 recC5min recC5b false 7 =
      some (-1, 7) ∧
    cmp_rec_rec_with_match envSimple idxC5 recC5min recC5b false 5 ≠
      cmp_rec_rec_with_match envSimple idxC5 recC5min recC5b false 7 := by
  refine ⟨rfl, rfl, by decide⟩

/-- Observable outcome of `cmp_rec_rec_simple`: an ordinary order result;
`dup` for the duplicate path (the duplicate row is reported through
`innobase_rec_to_mysql` and 0 is returned); `inconsistent` for reaching
the end of all index columns with full equality (debug-asserted
`ut_ad(0)` engine-consistency violation; release builds return 0). -/
inductive SimpleRes where
  | ord : Int → SimpleRes
  | dup : SimpleRes
  | inconsistent : SimpleRes
deriving DecidableEq

/-- Embedding of `cmp_rec_rec_simple_field`: fetch column `n`'s type from
the index and both records' field `n`, and compare with `cmp_data`
(externally stored fields are asserted absent; they and out-of-range
accesses are modelled as `none`). -/
def cmp_rec_rec_simple_field (env : CmpEnv) (idx : DictIndex)
    (f1 f2 : List RecField) (n : Nat) : Option Int :=
  match idx.cols.get? n, f1.get? n, f2.get? n with
  | some (mt, pt), some (RecField.stored v1), some (RecField.stored v2) =>
    cmp_data env mt pt v1 v2
  | _, _, _ => none

/-- Whether record field `n` is SQL NULL (`rec_offs_nth_sql_null`). -/
def isNullAt (f : List RecField) (n : Nat) : Bool :=
  match f.get? n with
  | some (RecField.stored v) => v.isNull
  | _ => false

/-- The first loop of `cmp_rec_rec_simple` over the uniqueness-prefix
columns, with explicit iteration count: return the first nonzero field
comparison together with the `null_eq` flag accumulated so far; on full
match return the final `null_eq` (set whenever a matched column was NULL,
which the source reads off the first record, the fields being equal). -/
def simpleUniqAux (env : CmpEnv) (idx : DictIndex) (f1 f2 : List RecField) :
    Nat → Nat → Bool → Option (Option Int × Bool)
  | 0, _, null_eq => some (none, null_eq)
  | l + 1, n, null_eq =>
    match cmp_rec_rec_simple_field env idx f1 f2 n with
    | some c =>
      if c ≠ 0 then some (some c, null_eq)
      else simpleUniqAux env idx f1 f2 l (n + 1) (null_eq || isNullAt f1 n)
    | none => none

/-- The second loop of `cmp_rec_rec_simple` over the remaining index
columns (`for (; n < dict_index_get_n_fields(index); n++)`): first
nonzero comparison wins; exhausting all columns is the engine-consistency
violation. -/
def simpleRestAux (env : CmpEnv) (idx : DictIndex) (f1 f2 : List RecField) :
    Nat → Nat → Option SimpleRes
  | 0, _ => some SimpleRes.inconsistent
  | l + 1, n =>
    match cmp_rec_rec_simple_field env idx f1 f2 n with
    | some c =>
      if c ≠ 0 then some (SimpleRes.ord c)
      else simpleRestAux env idx f1 f2 l (n + 1)
    | none => none

/-- Embedding of `cmp_rec_rec_simple`: compare the uniqueness-prefix
columns; a nonzero result wins; on full prefix match with no NULL
involved, a present report sink (`table != NULL`) and a unique index
report a duplicate and return 0; otherwise continue through the remaining
index columns for a full internal order. -/
def cmp_rec_rec_simple (env : CmpEnv) (idx : DictIndex) (rec1 rec2 : Rec)
    (table : Bool) : Option SimpleRes :=
  match simpleUniqAux env idx rec1.fields rec2.fields idx.n_uniq 0 false with
  | none => none
  | some (some c, _) => some (SimpleRes.ord c)
  | some (none, null_eq) =>
    if !null_eq && table && idx.is_unique then some SimpleRes.dup
    else
      simpleRestAux env idx rec1.fields rec2.fields
        (idx.n_fields - idx.n_uniq) idx.n_uniq

theorem simpleUniqAux_succ_some (env : CmpEnv) (idx : DictIndex)
    (f1 f2 : List RecField) (l n : Nat) (b : Bool) (c : Int)
    (hs : cmp_rec_rec_simple_field env idx f1 f2 n = some c) :
    simpleUniqAux env idx f1 f2 (l + 1) n b =
      if c ≠ 0 then some (some c, b)
      else simpleUniqAux env idx f1 f2 l (n + 1) (b || isNullAt f1 n) := by
  conv_lhs => rw [simpleUniqAux]
  rw [hs]

theorem simpleUniqAux_true (env : CmpEnv) (idx : DictIndex)
    (f1 f2 : List RecField) :
    ∀ l n, (∀ k, n ≤ k → k < n + l →
        cmp_rec_rec_simple_field env idx f1 f2 k = some 0) →
      simpleUniqAux env idx f1 f2 l n true = some (none, true) := by
  intro l
  induction l with
  | zero => intro n _; rfl
  | succ l ih =>
    intro n hu
    have hs := hu n (le_refl n) (by omega)
    rw [simpleUniqAux_succ_some env idx f1 f2 l n true 0 hs]
    simp only [ne_eq, not_true_eq_false, ite_false, if_neg, Bool.true_or]
    exact ih (n + 1) (fun k hk1 hk2 => hu k (by omega) (by omega))

theorem simpleUniqAux_clean (env : CmpEnv) (idx : DictIndex)
    (f1 f2 : List RecField) :
    ∀ l n, (∀ k, n ≤ k → k < n + l →
        cmp_rec_rec_simple_field env idx f1 f2 k = some 0) →
      (∀ k, n ≤ k → k < n + l → isNullAt f1 k = false) →
      simpleUniqAux env idx f1 f2 l n false = some (none, false) := by
  intro l
  induction l with
  | zero => intro n _ _; rfl
  | succ l ih =>
    intro n hu hnn
    have hs := hu n (le_refl n) (by omega)
    rw [simpleUniqAux_succ_some env idx f1 f2 l n false 0 hs]
    have hn0 : isNullAt f1 n = false := hnn n (le_refl n) (by omega)
    simp only [ne_eq, not_true_eq_false, ite_false, if_neg, hn0, Bool.or_false]
    exact ih (n + 1) (fun k hk1 hk2 => hu k (by omega) (by omega))
      (fun k hk1 hk2 => hnn k (by omega) (by omega))

theorem simpleUniqAux_null (env : CmpEnv) (idx : DictIndex)
    (f1 f2 : List RecField) :
    ∀ l n b m, (∀ k, n ≤ k → k < n + l →
        cmp_rec_rec_simple_field env idx f1 f2 k = some 0) →
      n ≤ m → m < n + l → isNullAt f1 m = true →
      simpleUniqAux env idx f1 f2 l n b = some (none, true) := by
  intro l
  induction l with
  | zero => intro n b m _ h1 h2 _; omega
  | succ l ih =>
    intro n b m hu hm1 hm2 hnull
    have hs := hu n (le_refl n) (by omega)
    rw [simpleUniqAux_succ_some env idx f1 f2 l n b 0 hs]
    simp only [ne_eq, not_true_eq_false, ite_false, if_neg]
    by_cases hnm : m = n
    · subst hnm
      rw [hnull, Bool.or_true]
      exact simpleUniqAux_true env idx f1 f2 l (m + 1)
        (fun k hk1 hk2 => hu k (by omega) (by omega))
    · exact ih (n + 1) (b || isNullAt f1 n) m
        (fun k hk1 hk2 => hu k (by omega) (by omega)) (by omega) (by omega) hnull

theorem simpleRestAux_succ_none (env : CmpEnv) (idx : DictIndex)
    (f1 f2 : List RecField) (l n : Nat)
    (hs : cmp_rec_rec_simple_field env idx f1 f2 n = none) :
    simpleRestAux env idx f1 f2 (l + 1) n = none := by
  conv_lhs => rw [simpleRestAux]
  rw [hs]

theorem simpleRestAux_succ_some (env : CmpEnv) (idx : DictIndex)
    (f1 f2 : List RecField) (l n : Nat) (c : Int)
    (hs : cmp_rec_rec_simple_field env idx f1 f2 n = some c) :
    simpleRestAux env idx f1 f2 (l + 1) n =
      if c ≠ 0 then some (SimpleRes.ord c)
      else simpleRestAux env idx f1 f2 l (n + 1) := by
  conv_lhs => rw [simpleRestAux]
  rw [hs]

theorem simpleRestAux_ne_dup (env : CmpEnv) (idx : DictIndex)
    (f1 f2 : List RecField) :
    ∀ l n, simpleRestAux env idx f1 f2 l n ≠ some SimpleRes.dup := by
  intro l
  induction l with
  | zero => intro n h; exact absurd h (by simp [simpleRestAux])
  | succ l ih =>
    intro n h
    cases hs : cmp_rec_rec_simple_field env idx f1 f2 n with
    | none =>
      rw [simpleRestAux_succ_none env idx f1 f2 l n hs] at h
      exact absurd h (by simp)
    | some c =>
      rw [simpleRestAux_succ_some env idx f1 f2 l n c hs] at h
      by_cases hc : c = 0
      · rw [if_neg (by simp [hc])] at h
        exact ih (n + 1) h
      · rw [if_pos hc] at h
        exact absurd h (by simp)

theorem simpleRestAux_all_eq (env : CmpEnv) (idx : DictIndex)
    (f1 f2 : List RecField) :
    ∀ l n, (∀ k, n ≤ k → k < n + l →
        cmp_rec_rec_simple_field env idx f1 f2 k = some 0) →
      simpleRestAux env idx f1 f2 l n = some SimpleRes.inconsistent := by
  intro l
  induction l with
  | zero => intro n _; rfl
  | succ l ih =>
    intro n hu
    have hs := hu n (le_refl n) (by omega)
    rw [simpleRestAux]
    rw [hs]
    simp only [ne_eq, not_true_eq_false, ite_false, if_neg]
    exact ih (n + 1) (fun k hk1 hk2 => hu k (by omega) (by omega))

/-- C6: in `cmp_rec_rec_simple`, when the two records are equal on every
uniqueness-prefix column: if none of those columns is NULL, the index is
unique and the report sink is present, a duplicate is reported (and 0
returned); if some uniqueness-prefix column is NULL, no duplicate is ever
reported and the comparison continues through the remaining index
columns, full equality across all columns being the debug-asserted
engine-consistency violation. (The NULL flag is read off the first
record; the prefix columns being equal, a NULL on either side is a NULL
on both.) -/
theorem C6_unique_duplicate (env : CmpEnv) (idx : DictIndex) (rec1 rec2 : Rec)
    (hu : ∀ n, n < idx.n_uniq →
      cmp_rec_rec_simple_field env idx rec1.fields rec2.fields n = some 0) :
    ((∀ n, n < idx.n_uniq → isNullAt rec1.fields n = false) →
      idx.is_unique = true →
      cmp_rec_rec_simple env idx rec1 rec2 true = some SimpleRes.dup) ∧
    (∀ m, m < idx.n_uniq → isNullAt rec1.fields m = true →
      (∀ table,
        cmp_rec_rec_simple env idx rec1 rec2 table =
          simpleRestAux env idx rec1.fields rec2.fields
            (idx.n_fields - idx.n_uniq) idx.n_uniq ∧
        cmp_rec_rec_simple env idx rec1 rec2 table ≠ some SimpleRes.dup) ∧
      ((∀ n, n < idx.n_fields →
          cmp_rec_rec_simple_field env idx rec1.fields rec2.fields n = some 0) →
        cmp_rec_rec_simple env idx rec1 rec2 true =
          some SimpleRes.inconsistent)) := by
  constructor
  · intro hnn huid
    have h1 : simpleUniqAux env idx rec1.fields rec2.fields idx.n_uniq 0 false =
        some (none, false) :=
      simpleUniqAux_clean env idx rec1.fields rec2.fields idx.n_uniq 0
        (fun k _ hk2 => hu k (by omega)) (fun k _ hk2 => hnn k (by omega))
    unfold cmp_rec_rec_simple
    rw [h1]
    simp [huid]
  · intro m hm hnull
    have h1 : simpleUniqAux env idx rec1.fields rec2.fields idx.n_uniq 0 false =
        some (none, true) :=
      simpleUniqAux_null env idx rec1.fields rec2.fields idx.n_uniq 0 false m
        (fun k _ hk2 => hu k (by omega)) (by omega) (by omega) hnull
    have hmain : ∀ table, cmp_rec_rec_simple env idx rec1 rec2 table =
        simpleRestAux env idx rec1.fields rec2.fields
          (idx.n_fields - idx.n_uniq) idx.n_uniq := by
      intro table
      unfold cmp_rec_rec_simple
      rw [h1]
      simp
    refine ⟨fun table => ⟨hmain table, ?_⟩, fun hall => ?_⟩
    · rw [hmain table]
      exact simpleRestAux_ne_dup env idx rec1.fields rec2.fields _ _
    · rw [hmain true]
      exact simpleRestAux_all_eq env idx rec1.fields rec2.fields
        (idx.n_fields - idx.n_uniq) idx.n_uniq
        (fun k hk1 hk2 => hall k (by omega))

def idxC6 : DictIndex :=
  { cols := [(4, 0), (4, 0)], is_univ := false, n_uniq := 1, n_fields := 2,
    is_unique := true }

def recC6 : Rec :=
  { info_bits := 0
    fields := [RecField.stored ⟨false, [1]⟩, RecField.stored ⟨false, [2]⟩] }

theorem C6_unique_duplicate_witness :
    cmp_rec_rec_simple envSimple idxC6 recC6 recC6 true = some SimpleRes.dup :=
  (C6_unique_duplicate envSimple idxC6 recC6 recC6 (by decide)).1
    (by decide) (by decide)
